import Mathlib

/-!
# Verification of the QrsTweaks encrypted password vault

Shallow embedding of `src/qrs/modules/passwords/vault.py` (class `Vault`,
exception `VaultError`, header dataclass `_Header`), the only subsystem of
the repository with a data-integrity contract.

Modelling conventions:

* `os.urandom` outputs (salts, nonces) are abstract byte-string tokens drawn
  from a counter in the `World` state, so two distinct draws are distinct
  tokens.
* `Scrypt.derive` (`Vault._derive_key`) is modelled as an ideal KDF: the
  derived key is determined by, and determines, the `(password, salt)` pair.
* `AESGCM.encrypt/decrypt` is modelled as an ideal AEAD cipher: a ciphertext
  remembers the key, nonce and plaintext that produced it, and decryption
  succeeds exactly on a ciphertext produced with the same key and nonce
  (`Ciphertext.junk` stands for any byte string — e.g. a byte-flipped
  ciphertext — that is not an encryption under any key in play; by AEAD
  integrity it fails authentication).
* `json.dumps`/`json.loads` of the entry list are mutually inverse on the
  string-dict lists the vault stores, so the AEAD plaintext is modelled
  directly as the entry list.
* The on-disk container is a `FileContent`: either a well-formed envelope
  (`env`), or one of the malformed shapes the reading code in
  `unlock_or_create` distinguishes by where it raises (invalid JSON, a
  missing field, invalid base64 in a field), keeping the source's access
  order: `meta["kdf_salt"]`, `meta["nonce"]` outside the `try`, and
  `meta["ciphertext"]` with its base64 decode inside the `try`.
* Python exceptions are an `Except VErr` result; mutations of `self`
  performed before a raise persist, as in Python.  Filesystem writes are
  recorded both in the `World` and in an `FsOp` trace, so that claims about
  *how* the file is replaced (in place vs. temp-file-and-rename) are
  statable.
-/

/-- Abstract byte strings produced by `os.urandom`, identified by the draw
counter value at which they were produced. -/
abbrev Bytes := Nat

/-- An ideal scrypt key: determined by and determining `(password, salt)`.
Embeds `Vault._derive_key` (scrypt, n=2^14, r=8, p=1, length 32). -/
structure Key where
  password : String
  salt : Bytes
deriving DecidableEq, Repr

/-- One vault entry, the dict `{"title": ..., "username": ..., "password": ...}`
appended by `Vault.add_entry`. -/
structure Entry where
  title : String
  username : String
  password : String
deriving DecidableEq, Repr

/-- Ideal AEAD ciphertext (`AESGCM.encrypt` output): `enc` remembers the key,
nonce and plaintext; `junk` is any byte string that is not an encryption under
a key in play (e.g. a tampered/byte-flipped ciphertext, which by AEAD
integrity authenticates under no key). -/
inductive Ciphertext where
  | enc (key : Key) (nonce : Bytes) (plaintext : List Entry)
  | junk (id : Nat)
deriving DecidableEq, Repr

/-- `AESGCM(key).encrypt(nonce, plaintext, None)`. -/
def aesgcmEncrypt (key : Key) (nonce : Bytes) (pt : List Entry) : Ciphertext :=
  .enc key nonce pt

/-- `AESGCM(key).decrypt(nonce, ciphertext, None)`: succeeds exactly on a
ciphertext produced under the same key and nonce (`none` = `InvalidTag`). -/
def aesgcmDecrypt (key : Key) (nonce : Bytes) : Ciphertext → Option (List Entry)
  | .enc k n p => if k = key ∧ n = nonce then some p else none
  | .junk _ => none

/-- The five-field JSON envelope written by `Vault.save` (the `meta` dict). -/
structure Envelope where
  kdf : String
  kdf_salt : Bytes
  nonce : Bytes
  cipher : String
  ciphertext : Ciphertext
  version : Nat
deriving DecidableEq, Repr

/-- Content of the container file.  `env` is a well-formed envelope; the other
shapes are the malformed files `unlock_or_create` distinguishes by where its
reading code raises.  Constructors carry the values of the fields the code
successfully reads before failing, in the source's access order. -/
inductive FileContent where
  /-- Well-formed JSON envelope, all fields present with valid base64. -/
  | env (e : Envelope)
  /-- `json.loads` raises (not valid JSON). -/
  | malformedJson (id : Nat)
  /-- JSON object without a `"kdf_salt"` key: `meta["kdf_salt"]` raises. -/
  | missingSalt (id : Nat)
  /-- Has `kdf_salt` but no `"nonce"` key: `meta["nonce"]` raises. -/
  | missingNonce (salt : Bytes) (id : Nat)
  /-- Has `kdf_salt` and `nonce` but no `"ciphertext"` key: `meta["ciphertext"]`
  raises inside the `try`. -/
  | missingCiphertext (salt nonce : Bytes) (id : Nat)
  /-- `"kdf_salt"` value is not valid base64: `b64decode` raises. -/
  | badBase64Salt (id : Nat)
  /-- `"nonce"` value is not valid base64. -/
  | badBase64Nonce (salt : Bytes) (id : Nat)
  /-- `"ciphertext"` value is not valid base64; its decode is inside the `try`. -/
  | badBase64Ciphertext (salt nonce : Bytes) (id : Nat)
deriving DecidableEq, Repr

/-- External state: the container file at `self.path`, the CSV file at the
export `out_path`, and the `os.urandom` draw counter. -/
structure World where
  file : Option FileContent
  csvFile : Option (List Char)
  rng : Nat
deriving DecidableEq, Repr

/-- `os.urandom(_)`: return a fresh abstract byte-string token. -/
def urandom (w : World) : Bytes × World :=
  (w.rng, { w with rng := w.rng + 1 })

/-- The `_Header` dataclass: `kdf_salt` and `nonce`. -/
structure Header where
  kdf_salt : Bytes
  nonce : Bytes
deriving DecidableEq, Repr

/-- The `Vault` object's mutable fields: `_key`, `_entries`, `is_open`,
`_header` (`path` is implicit: each `World` models that single path). -/
structure Vault where
  key : Option Key
  entries : List Entry
  is_open : Bool
  header : Option Header
deriving DecidableEq, Repr

/-- `Vault.__init__`: locked, no key, no header, empty entry list. -/
def Vault.init : Vault :=
  { key := none, entries := [], is_open := false, header := none }

/-- Result of a Python call: `VaultError` with its message, or a raw
(non-`VaultError`) exception escaping the vault API, named by its type. -/
inductive VErr where
  | vaultError (msg : String)
  | rawError (name : String)
deriving DecidableEq, Repr

/-- Filesystem operations a vault call can perform on disk.  The source only
ever emits `writeContainer` (in-place `self.path.write_text`) and `writeCsv`;
`tempWrite` and `rename` exist so that the atomic-replace discipline required
by the spec is statable about the trace. -/
inductive FsOp where
  | writeContainer (c : FileContent)
  | tempWrite (c : FileContent)
  | rename
  | writeCsv (s : List Char)
deriving DecidableEq, Repr

deriving instance DecidableEq for Except

/-- Outcome of one vault method call: result (or exception), the vault object
after the call (mutations before a raise persist), the external world, and
the trace of filesystem operations performed. -/
structure Outcome (α : Type) where
  res : Except VErr α
  vault : Vault
  world : World
  trace : List FsOp
deriving DecidableEq, Repr

/-- `Vault._derive_key(password, salt)` under the ideal-KDF model. -/
def Vault.derive_key (password : String) (salt : Bytes) : Key :=
  ⟨password, salt⟩

/-- Message of the `VaultError` raised when unlocking fails. -/
def unlockFailMsg : String :=
  "Unable to unlock vault (wrong password or corrupted file)."

/-- `Vault.save`: guard `not self.is_open or not self._header`, then encrypt
`self._entries` with the header nonce and write the five-field envelope
in place with `self.path.write_text`.  The `header`-set/`key`-unset branch is
the `assert self._header and self._key` in `_encrypt` (raw `AssertionError`);
it is unreachable from `Vault.init` since the code always sets both together. -/
def Vault.save (v : Vault) (w : World) : Outcome Unit :=
  if !v.is_open || v.header.isNone then
    ⟨.error (.vaultError "Vault not open."), v, w, []⟩
  else
    match v.header, v.key with
    | some hdr, some key =>
      let ct := aesgcmEncrypt key hdr.nonce v.entries
      let meta : Envelope :=
        { kdf := "scrypt", kdf_salt := hdr.kdf_salt, nonce := hdr.nonce,
          cipher := "AESGCM", ciphertext := ct, version := 1 }
      ⟨.ok (), v, { w with file := some (.env meta) },
        [.writeContainer (.env meta)]⟩
    | _, _ =>
      ⟨.error (.rawError "AssertionError"), v, w, []⟩

/-- `Vault.unlock_or_create(password)`.  Creation branch: draw salt and nonce,
derive the key, clear entries, call `self.save()` — note `self.is_open` is
still `False` at that point, so `save` raises and the raise propagates.
Existing-file branch: read the envelope (raw exceptions outside the `try`),
derive the key from the stored salt, decrypt inside the `try`; any failure
there is re-raised as `VaultError`.  Only on success is `is_open` set. -/
def Vault.unlock_or_create (v : Vault) (w : World) (password : String) :
    Outcome Bool :=
  match w.file with
  | none =>
    let (salt, w1) := urandom w
    let (nonce, w2) := urandom w1
    let key := Vault.derive_key password salt
    let v1 : Vault :=
      { v with header := some ⟨salt, nonce⟩, key := some key, entries := [] }
    let s := v1.save w2
    match s.res with
    | .error e => ⟨.error e, s.vault, s.world, s.trace⟩
    | .ok _ =>
      ⟨.ok true, { s.vault with is_open := true }, s.world, s.trace⟩
  | some (.malformedJson _) =>
    ⟨.error (.rawError "json.JSONDecodeError"), v, w, []⟩
  | some (.missingSalt _) =>
    ⟨.error (.rawError "KeyError"), v, w, []⟩
  | some (.badBase64Salt _) =>
    ⟨.error (.rawError "binascii.Error"), v, w, []⟩
  | some (.missingNonce _ _) =>
    ⟨.error (.rawError "KeyError"), v, w, []⟩
  | some (.badBase64Nonce _ _) =>
    ⟨.error (.rawError "binascii.Error"), v, w, []⟩
  | some (.missingCiphertext salt nonce _) =>
    let v1 : Vault :=
      { v with header := some ⟨salt, nonce⟩,
               key := some (Vault.derive_key password salt) }
    ⟨.error (.vaultError unlockFailMsg), v1, w, []⟩
  | some (.badBase64Ciphertext salt nonce _) =>
    let v1 : Vault :=
      { v with header := some ⟨salt, nonce⟩,
               key := some (Vault.derive_key password salt) }
    ⟨.error (.vaultError unlockFailMsg), v1, w, []⟩
  | some (.env e) =>
    let key := Vault.derive_key password e.kdf_salt
    let v1 : Vault :=
      { v with header := some ⟨e.kdf_salt, e.nonce⟩, key := some key }
    match aesgcmDecrypt key e.nonce e.ciphertext with
    | some pt =>
      ⟨.ok false, { v1 with entries := pt, is_open := true }, w, []⟩
    | none =>
      ⟨.error (.vaultError unlockFailMsg), v1, w, []⟩

/-- `Vault.add_entry(title, username, password)`: guard `is_open`, guard
non-empty title (`not title` on a `str` is `title == ""`), then append. -/
def Vault.add_entry (v : Vault) (w : World)
    (title username password : String) : Outcome Unit :=
  if !v.is_open then
    ⟨.error (.vaultError "Vault is locked."), v, w, []⟩
  else if title = "" then
    ⟨.error (.vaultError "Title required."), v, w, []⟩
  else
    ⟨.ok (), { v with entries := v.entries ++ [⟨title, username, password⟩] },
      w, []⟩

/-- `Vault.list_entries`: `[]` when locked, else a copy of `self._entries`. -/
def Vault.list_entries (v : Vault) : List Entry :=
  if !v.is_open then [] else v.entries

/-! ## CSV writing (Python `csv.writer`, dialect `excel`)

`export_csv` opens the file with `newline=""` and uses `csv.writer` defaults:
delimiter `,`, quotechar `"`, `doublequote=True`, line terminator `\r\n`,
`QUOTE_MINIMAL` (a field is quoted iff it contains the delimiter, the
quotechar, or a line-terminator character `\r`/`\n`).  Text is modelled as
`List Char`. -/

/-- Characters that force `QUOTE_MINIMAL` to quote a field. -/
def csvSpecial (c : Char) : Bool :=
  c = ',' || c = '"' || c = '\r' || c = '\n'

/-- Does `csv.writer` quote this field? -/
def csvNeedsQuote (s : List Char) : Bool :=
  s.any csvSpecial

/-- Double every quotechar in a field body (`doublequote=True`). -/
def csvEscape : List Char → List Char
  | [] => []
  | c :: rest =>
    if c = '"' then '"' :: '"' :: csvEscape rest else c :: csvEscape rest

/-- Render one field: quoted with doubled quotes when needed. -/
def csvField (s : List Char) : List Char :=
  if csvNeedsQuote s then '"' :: (csvEscape s ++ ['"']) else s

/-- Rendered fields of one row, joined by the `,` delimiter. -/
def csvRowBody : List (List Char) → List Char
  | [] => []
  | [f] => csvField f
  | f :: rest => csvField f ++ ',' :: csvRowBody rest

/-- `csv.writer.writerow`: fields joined by `,`, terminated by `\r\n`. -/
def csvRow (fields : List (List Char)) : List Char :=
  csvRowBody fields ++ ['\r', '\n']

/-- A whole CSV file: the concatenation of its rendered rows. -/
def csvRender (rows : List (List (List Char))) : List Char :=
  (rows.map csvRow).flatten

/-- The row `[r["title"], r["username"], r["password"]]` for one entry. -/
def entryRow (r : Entry) : List (List Char) :=
  [r.title.toList, r.username.toList, r.password.toList]

/-- The header row `["Title", "Username", "Password"]`. -/
def csvHeaderRow : List (List Char) :=
  ["Title".toList, "Username".toList, "Password".toList]

/-- `Vault.export_csv(out_path)`: guard `is_open`, write the header row and
one row per entry to the export file, return `len(rows)`. -/
def Vault.export_csv (v : Vault) (w : World) : Outcome Nat :=
  if !v.is_open then
    ⟨.error (.vaultError "Vault not open."), v, w, []⟩
  else
    let content := csvRender (csvHeaderRow :: v.entries.map entryRow)
    ⟨.ok v.entries.length, v, { w with csvFile := some content },
      [.writeCsv content]⟩

/-! ## Operation sequences

For trace-style claims (nonce constancy across arbitrary call sequences) the
public API calls are reified as `Op` and run in order; an exception leaves the
vault and world exactly as the embedded method does. -/

/-- One public vault API call. -/
inductive Op where
  | unlock (password : String)
  | add (title username password : String)
  | save
  | listEntries
  | exportCsv
deriving DecidableEq, Repr

/-- Apply one call, keeping the resulting vault and world. -/
def stepOp (s : Vault × World) (op : Op) : Vault × World :=
  match op with
  | .unlock p => let o := s.1.unlock_or_create s.2 p; (o.vault, o.world)
  | .add t u p => let o := s.1.add_entry s.2 t u p; (o.vault, o.world)
  | .save => let o := s.1.save s.2; (o.vault, o.world)
  | .listEntries => (let _ := s.1.list_entries; s)
  | .exportCsv => let o := s.1.export_csv s.2; (o.vault, o.world)

/-- Run a sequence of public API calls. -/
def runOps (ops : List Op) (s : Vault × World) : Vault × World :=
  ops.foldl stepOp s

/-- The nonce recorded in the container file, when the file is a well-formed
envelope. -/
def fileNonce : Option FileContent → Option Bytes
  | some (.env e) => some e.nonce
  | _ => none

/-! ## CSV reading (a standard RFC4180 / Python `csv.reader` parser)

The spec's "reading it back with a standard CSV parser" is modelled by an
RFC4180 reader matching `csv.reader` on `csv.writer` output: fields separated
by `,`, records terminated by `\r\n`, a field starting with `"` read as a
quoted field with `""` meaning a literal quote. -/

/-- Read the body of a quoted field (opening quote already consumed):
`""` yields a literal `"`; a lone `"` closes the field. -/
def parseQuotedAux (acc : List Char) : List Char → Option (List Char × List Char)
  | [] => none
  | c :: rest =>
    if c = '"' then
      match rest with
      | c2 :: rest2 =>
        if c2 = '"' then parseQuotedAux (acc ++ ['"']) rest2
        else some (acc, rest)
      | [] => some (acc, [])
    else parseQuotedAux (acc ++ [c]) rest

/-- Read an unquoted field: everything up to a `,`, `\r`, `\n` or the end. -/
def parseUnquotedAux (acc : List Char) : List Char → List Char × List Char
  | [] => (acc, [])
  | c :: rest =>
    if c = ',' || c = '\r' || c = '\n' then (acc, c :: rest)
    else parseUnquotedAux (acc ++ [c]) rest

/-- Read one field: quoted when it starts with `"`, unquoted otherwise. -/
def parseOneField (s : List Char) : Option (List Char × List Char) :=
  match s with
  | c :: rest =>
    if c = '"' then parseQuotedAux [] rest else some (parseUnquotedAux [] s)
  | [] => some (parseUnquotedAux [] [])

/-- Read the fields of one record: fields separated by `,`, the record ending
at `\r\n` or at the end of input.  The fuel bounds the number of fields. -/
def parseFieldsFuel : Nat → List Char → Option (List (List Char) × List Char)
  | 0, _ => none
  | fuel + 1, s =>
    match parseOneField s with
    | none => none
    | some (f, rest) =>
      match rest with
      | [] => some ([f], [])
      | c :: rest2 =>
        if c = ',' then
          match parseFieldsFuel fuel rest2 with
          | none => none
          | some (fs, r) => some (f :: fs, r)
        else if c = '\r' then
          match rest2 with
          | c2 :: rest3 => if c2 = '\n' then some ([f], rest3) else none
          | [] => none
        else none

/-- Read all records of a CSV file.  The fuel bounds the number of records. -/
def parseCsvFuel (fuel : Nat) (s : List Char) : Option (List (List (List Char))) :=
  match s with
  | [] => some []
  | _ :: _ =>
    match fuel with
    | 0 => none
    | fuel + 1 =>
      match parseFieldsFuel (fuel + 1) s with
      | none => none
      | some (r, rest) =>
        match parseCsvFuel fuel rest with
        | none => none
        | some rs => some (r :: rs)
termination_by fuel

/-- Parse a CSV file (fuel = length of the input suffices: every record
consumes at least one character). -/
def parseCsv (s : List Char) : Option (List (List (List Char))) :=
  parseCsvFuel (s.length + 1) s

/-- Number of lines of a text file whose lines are `\n`-terminated (the
`csv.writer` output ends every record with `\r\n`). -/
def lineCount (s : List Char) : Nat :=
  (s.filter (fun c => c = '\n')).length

/-! ## Auxiliary predicates for the claims -/

/-- Is this filesystem operation a temp-file write? -/
def FsOp.isTemp : FsOp → Bool
  | .tempWrite _ => true
  | _ => false

/-- Is this filesystem operation a rename? -/
def FsOp.isRen : FsOp → Bool
  | .rename => true
  | _ => false

/-- Did the call raise a raw (non-`VaultError`) exception? -/
def isRawRes {α : Type} : Except VErr α → Bool
  | .error (.rawError _) => true
  | _ => false

/-- File shapes whose reading errors are raised outside the `try` block of
`unlock_or_create`: invalid JSON, a missing `kdf_salt`/`nonce` key, or
invalid base64 in `kdf_salt`/`nonce`. -/
def envelopeReadFails : Option FileContent → Bool
  | some (.malformedJson _) => true
  | some (.missingSalt _) => true
  | some (.badBase64Salt _) => true
  | some (.missingNonce _ _) => true
  | some (.badBase64Nonce _ _) => true
  | _ => false

/-- Invariant for nonce constancy: the container file is a well-formed
envelope whose nonce is `n0`, and whenever the vault is open its header
nonce is `n0`. -/
def nonceInv (n0 : Bytes) (s : Vault × World) : Prop :=
  (∃ e : Envelope, s.2.file = some (.env e) ∧ e.nonce = n0) ∧
  (s.1.is_open = true → ∃ h : Header, s.1.header = some h ∧ h.nonce = n0)

/-! ## Concrete fixtures for witnesses and counterexamples -/

/-- A key for password `"P1"` and salt token `5`. -/
def exKey : Key := ⟨"P1", 5⟩

/-- A one-entry list. -/
def exEntries : List Entry := [⟨"site", "alice", "s3cret"⟩]

/-- A well-formed container envelope holding `exEntries` under `exKey`. -/
def exEnv : Envelope := ⟨"scrypt", 5, 6, "AESGCM", .enc exKey 6 exEntries, 1⟩

/-- A world whose container file is `exEnv`. -/
def exWorld : World := ⟨some (.env exEnv), none, 10⟩

/-- An unlocked vault consistent with `exEnv`. -/
def exOpenVault : Vault := ⟨some exKey, exEntries, true, some ⟨5, 6⟩⟩

/-- `exOpenVault` with one extra in-memory entry that was never saved. -/
def exUnsavedVault : Vault :=
  { exOpenVault with entries := exOpenVault.entries ++ [⟨"unsaved", "x", "y"⟩] }

/-- An entry whose title contains a line feed. -/
def exNewlineEntry : Entry := ⟨"a\nb", "u", "p"⟩

/-- An unlocked vault holding the newline-titled entry. -/
def exNewlineVault : Vault := ⟨some exKey, [exNewlineEntry], true, some ⟨5, 6⟩⟩

/-- Admissible continuations after a rendered field in a rendered file:
nothing, a `,` delimiter, or the `\r` of the record terminator. -/
def fieldStop (rest : List Char) : Prop :=
  rest = [] ∨ (∃ cs, rest = ',' :: cs) ∨ (∃ cs, rest = '\r' :: cs)

/-- Positions where `parseUnquotedAux` stops: end of input or a delimiter /
line-terminator character. -/
def unquotedStop (rest : List Char) : Prop :=
  rest = [] ∨ ∃ c cs, rest = c :: cs ∧ (c = ',' ∨ c = '\r' ∨ c = '\n')

/-- An unlocked vault whose entry fields contain the CSV delimiter and the
quote character. -/
def exQuoteVault : Vault :=
  { key := some exKey, entries := [⟨"a,b", "u\"x", "p"⟩], is_open := true,
    header := some ⟨5, 6⟩ }

/-! ## Claim theorems -/

/-- C1: the claimed round trip is broken by the code at its very first step.
On a fresh (non-existent) path, `unlock_or_create` raises
`VaultError("Vault not open.")` for every password: the creation branch calls
`self.save()` before `self.is_open = True` is executed, and `save`'s guard
fires.  No container file is written and the vault stays locked, so no
`add_entry`/`save`/re-unlock sequence can ever complete the round trip. -/
theorem claim_C1_roundtrip_broken_at_creation (password : String) (rng : Nat) :
    ((Vault.init.unlock_or_create ⟨none, none, rng⟩ password).res
        = .error (.vaultError "Vault not open.")) ∧
    (Vault.init.unlock_or_create ⟨none, none, rng⟩ password).world.file = none ∧
    (Vault.init.unlock_or_create ⟨none, none, rng⟩ password).vault.is_open = false :=
  ⟨rfl, rfl, rfl⟩

/-- C7: `unlock_or_create` against a non-existent path never returns
`created = true`: it raises `VaultError("Vault not open.")` (the creation
branch calls `save()` while still locked), writes no file, and a second call
with the same password fails identically since the path still does not
exist. -/
theorem claim_C7_idempotent_creation_fails (password : String) (rng : Nat) :
    ((Vault.init.unlock_or_create ⟨none, none, rng⟩ password).res
        = .error (.vaultError "Vault not open.") ∧
     (Vault.init.unlock_or_create ⟨none, none, rng⟩ password).res ≠ .ok true ∧
     (Vault.init.unlock_or_create ⟨none, none, rng⟩ password).world.file = none) ∧
    (((Vault.init.unlock_or_create ⟨none, none, rng⟩ password).vault.unlock_or_create
        (Vault.init.unlock_or_create ⟨none, none, rng⟩ password).world password).res
      = .error (.vaultError "Vault not open.")) := by
  refine ⟨⟨rfl, ?_, rfl⟩, rfl⟩
  intro h
  have h2 : (Except.error (VErr.vaultError "Vault not open.") : Except VErr Bool)
      = .ok true := h
  cases h2

/-- C4: `save()` does not atomically replace the container via a temp file
and rename: on an unlocked vault its filesystem trace is exactly one in-place
`write_text` of the container path, with no temp-file write and no rename
anywhere in the trace. -/
theorem claim_C4_save_writes_in_place :
    (exOpenVault.save exWorld).trace
      = [FsOp.writeContainer (.env ⟨"scrypt", 5, 6, "AESGCM",
          .enc exKey 6 exEntries, 1⟩)] ∧
    (exOpenVault.save exWorld).trace.all
      (fun op => ! op.isTemp && ! op.isRen) = true := by
  exact ⟨rfl, rfl⟩

/-- C5: on a freshly constructed, never-unlocked `Vault`, `add_entry`, `save`
and `export_csv` each raise `VaultError` and change neither the vault object,
nor the world (container and CSV files), nor perform any filesystem
operation; `list_entries` returns `[]` without raising. -/
theorem claim_C5_locked_guards (w : World) (t u p : String) :
    ((Vault.init.add_entry w t u p).res = .error (.vaultError "Vault is locked.") ∧
      (Vault.init.add_entry w t u p).vault = Vault.init ∧
      (Vault.init.add_entry w t u p).world = w ∧
      (Vault.init.add_entry w t u p).trace = []) ∧
    ((Vault.init.save w).res = .error (.vaultError "Vault not open.") ∧
      (Vault.init.save w).vault = Vault.init ∧
      (Vault.init.save w).world = w ∧
      (Vault.init.save w).trace = []) ∧
    ((Vault.init.export_csv w).res = .error (.vaultError "Vault not open.") ∧
      (Vault.init.export_csv w).vault = Vault.init ∧
      (Vault.init.export_csv w).world = w ∧
      (Vault.init.export_csv w).trace = []) ∧
    Vault.init.list_entries = [] :=
  ⟨⟨rfl, rfl, rfl, rfl⟩, ⟨rfl, rfl, rfl, rfl⟩, ⟨rfl, rfl, rfl, rfl⟩, rfl⟩

/-- C8: on an unlocked vault, `add_entry` with an empty title raises
`VaultError("Title required.")` and leaves the vault (in particular the
in-memory entry list) and the world unchanged; with any non-empty title it
succeeds and appends exactly that one entry at the end of the list. -/
theorem claim_C8_title_required (v : Vault) (w : World) (u p : String)
    (hopen : v.is_open = true) :
    ((v.add_entry w "" u p).res = .error (.vaultError "Title required.") ∧
     (v.add_entry w "" u p).vault = v ∧
     (v.add_entry w "" u p).world = w) ∧
    (∀ t : String, t ≠ "" →
      (v.add_entry w t u p).res = .ok () ∧
      (v.add_entry w t u p).vault.entries = v.entries ++ [⟨t, u, p⟩]) := by
  refine ⟨?_, ?_⟩
  · simp [Vault.add_entry, hopen]
  · intro t ht
    simp [Vault.add_entry, hopen, ht]

/-- Witness for C8 at a concrete unlocked vault. -/
theorem claim_C8_title_required_witness :
    exOpenVault.is_open = true ∧
    (exOpenVault.add_entry exWorld "" "u" "p").res
      = .error (.vaultError "Title required.") ∧
    (exOpenVault.add_entry exWorld "t" "u" "p").res = .ok () ∧
    (exOpenVault.add_entry exWorld "t" "u" "p").vault.entries
      = exOpenVault.entries ++ [⟨"t", "u", "p"⟩] :=
  ⟨rfl, (claim_C8_title_required exOpenVault exWorld "u" "p" rfl).1.1,
    ((claim_C8_title_required exOpenVault exWorld "u" "p" rfl).2 "t"
      (by decide)).1,
    ((claim_C8_title_required exOpenVault exWorld "u" "p" rfl).2 "t"
      (by decide)).2⟩

/-- C2: on a container encrypted under password `P1`, `unlock_or_create(P2)`
with `P2 ≠ P1` raises `VaultError` (the derived key differs, so AEAD
decryption fails inside the `try`) and performs no write, leaving the
container byte-for-byte unchanged; and replacing the stored ciphertext by any
tampered byte string (which by AEAD integrity is not an encryption under the
key) makes `unlock_or_create(P1)` raise `VaultError` as well. -/
theorem claim_C2_wrong_password_and_corruption
    (P1 P2 : String) (hP : P2 ≠ P1) (e : Envelope) (L : List Entry)
    (v : Vault) (w : World)
    (hf : w.file = some (.env e))
    (hct : e.ciphertext = .enc (Vault.derive_key P1 e.kdf_salt) e.nonce L) :
    ((v.unlock_or_create w P2).res = .error (.vaultError unlockFailMsg) ∧
      (v.unlock_or_create w P2).world = w ∧
      (v.unlock_or_create w P2).trace = []) ∧
    (∀ m : Nat,
      ((v.unlock_or_create
          { w with file := some (.env { e with ciphertext := .junk m }) } P1).res
        = .error (.vaultError unlockFailMsg)) ∧
      ((v.unlock_or_create
          { w with file := some (.env { e with ciphertext := .junk m }) } P1).world
        = { w with file := some (.env { e with ciphertext := .junk m }) })) := by
  have hP1 : P1 ≠ P2 := fun h => hP h.symm
  constructor
  · simp [Vault.unlock_or_create, hf, hct, aesgcmDecrypt, Vault.derive_key,
      Key.mk.injEq, hP1]
  · intro m
    simp [Vault.unlock_or_create, aesgcmDecrypt]

/-- Witness for C2 at a concrete container, passwords `"P1"`/`"P2"`, and a
concrete tampered ciphertext. -/
theorem claim_C2_wrong_password_witness :
    ("P2" ≠ "P1") ∧ exWorld.file = some (.env exEnv) ∧
    (Vault.init.unlock_or_create exWorld "P2").res
      = .error (.vaultError unlockFailMsg) ∧
    (Vault.init.unlock_or_create exWorld "P2").world = exWorld ∧
    (Vault.init.unlock_or_create
        { exWorld with
          file := some (.env { exEnv with ciphertext := .junk 0 }) } "P1").res
      = .error (.vaultError unlockFailMsg) :=
  ⟨by decide, rfl,
    (claim_C2_wrong_password_and_corruption "P1" "P2" (by decide)
      exEnv exEntries Vault.init exWorld rfl rfl).1.1,
    (claim_C2_wrong_password_and_corruption "P1" "P2" (by decide)
      exEnv exEntries Vault.init exWorld rfl rfl).1.2.1,
    ((claim_C2_wrong_password_and_corruption "P1" "P2" (by decide)
      exEnv exEntries Vault.init exWorld rfl rfl).2 0).1⟩

/-- C10: calling `unlock_or_create` with the correct password on an
already-unlocked vault whose container file exists re-reads and re-decrypts
the file: the in-memory entry list is replaced by the persisted list `L`
(entries added but not saved are discarded), the call returns
`created = false`, and the file is untouched. -/
theorem claim_C10_reunlock_rereads_disk
    (e : Envelope) (L : List Entry) (P : String) (v : Vault) (w : World)
    (_hopen : v.is_open = true)
    (hf : w.file = some (.env e))
    (hct : e.ciphertext = .enc (Vault.derive_key P e.kdf_salt) e.nonce L) :
    (v.unlock_or_create w P).res = .ok false ∧
    (v.unlock_or_create w P).vault.entries = L ∧
    (v.unlock_or_create w P).vault.is_open = true ∧
    (v.unlock_or_create w P).world = w := by
  simp [Vault.unlock_or_create, hf, hct, aesgcmDecrypt]

/-- Witness for C10: an unlocked vault with an unsaved extra entry re-unlocks
to the persisted one-entry list. -/
theorem claim_C10_reunlock_witness :
    exUnsavedVault.is_open = true ∧
    exWorld.file = some (.env exEnv) ∧
    exEnv.ciphertext
      = .enc (Vault.derive_key "P1" exEnv.kdf_salt) exEnv.nonce exEntries ∧
    ((exUnsavedVault.unlock_or_create exWorld "P1").res = .ok false ∧
     (exUnsavedVault.unlock_or_create exWorld "P1").vault.entries = exEntries ∧
     (exUnsavedVault.unlock_or_create exWorld "P1").vault.is_open = true ∧
     (exUnsavedVault.unlock_or_create exWorld "P1").world = exWorld) :=
  ⟨rfl, rfl, rfl,
    claim_C10_reunlock_rereads_disk exEnv exEntries "P1" exUnsavedVault
      exWorld rfl rfl rfl⟩

/-- C6 counterexample: a container file that is not valid JSON makes
`unlock_or_create` raise the raw `json.JSONDecodeError` — `json.loads` runs
outside the `try` block — so a non-`VaultError` exception crosses the public
API, contradicting the claim for malformed container files. -/
theorem claim_C6_raw_exception_crosses_api :
    ((Vault.init.unlock_or_create ⟨some (.malformedJson 0), none, 0⟩ "pw").res
      = .error (.rawError "json.JSONDecodeError")) ∧
    (∀ msg : String,
      (Vault.init.unlock_or_create ⟨some (.malformedJson 0), none, 0⟩ "pw").res
        ≠ .error (.vaultError msg)) := by
  refine ⟨rfl, ?_⟩
  intro msg h
  have h2 : (Except.error (VErr.rawError "json.JSONDecodeError") : Except VErr Bool)
      = .error (.vaultError msg) := h
  simp at h2

/-- C6 (amended): failures surface as `VaultError` except for
envelope-reading failures in `unlock_or_create` — invalid JSON, a missing
`kdf_salt`/`nonce` field, or invalid base64 in `kdf_salt`/`nonce` — which
escape as raw exceptions because they occur outside the `try` block.
`add_entry`, `save` and `export_csv` raise only `VaultError` (on states where
a derived key accompanies the header, as the code always establishes). -/
theorem claim_C6_error_taxonomy
    (v : Vault) (w : World) (p t u pw : String)
    (hk : v.header.isSome = true → v.key.isSome = true) :
    (isRawRes (v.unlock_or_create w p).res = true →
      envelopeReadFails w.file = true) ∧
    isRawRes (v.add_entry w t u pw).res = false ∧
    isRawRes (v.save w).res = false ∧
    isRawRes (v.export_csv w).res = false := by
  refine ⟨?_, ?_, ?_, ?_⟩
  · -- unlock_or_create: raw errors only on malformed-envelope files
    match hw : w.file with
    | none =>
      cases hvo : v.is_open <;>
        simp [Vault.unlock_or_create, Vault.save, urandom, hw, hvo, isRawRes]
    | some (.env e) =>
      cases hdec : aesgcmDecrypt (Vault.derive_key p e.kdf_salt) e.nonce
          e.ciphertext <;>
        simp [Vault.unlock_or_create, hw, hdec, isRawRes]
    | some (.malformedJson i) => simp [envelopeReadFails]
    | some (.missingSalt i) => simp [envelopeReadFails]
    | some (.missingNonce s i) => simp [envelopeReadFails]
    | some (.badBase64Salt i) => simp [envelopeReadFails]
    | some (.badBase64Nonce s i) => simp [envelopeReadFails]
    | some (.missingCiphertext s n i) =>
      simp [Vault.unlock_or_create, hw, isRawRes]
    | some (.badBase64Ciphertext s n i) =>
      simp [Vault.unlock_or_create, hw, isRawRes]
  · -- add_entry raises only VaultError
    cases hvo : v.is_open
    · simp [Vault.add_entry, hvo, isRawRes]
    · by_cases ht : t = "" <;> simp [Vault.add_entry, hvo, ht, isRawRes]
  · -- save raises only VaultError (key accompanies header)
    cases hvo : v.is_open
    · simp [Vault.save, hvo, isRawRes]
    · match hh : v.header with
      | none => simp [Vault.save, hvo, hh, isRawRes]
      | some hdr =>
        have hks : v.key.isSome = true := hk (by simp [hh])
        match hkk : v.key with
        | some k => simp [Vault.save, hvo, hh, hkk, isRawRes]
        | none => rw [hkk] at hks; cases hks
  · -- export_csv raises only VaultError
    cases hvo : v.is_open <;> simp [Vault.export_csv, hvo, isRawRes]

/-- Witness for C6 (amended): a fresh vault over the example container never
leaks a raw exception from `add_entry`/`save`/`export_csv`, and over a
non-JSON container file the raw exception from `unlock_or_create` is indeed
an envelope-reading failure. -/
theorem claim_C6_error_taxonomy_witness :
    envelopeReadFails (some (.malformedJson 0)) = true ∧
    isRawRes (Vault.init.add_entry exWorld "t" "u" "pw").res = false ∧
    isRawRes (Vault.init.save exWorld).res = false ∧
    isRawRes (Vault.init.export_csv exWorld).res = false :=
  ⟨(claim_C6_error_taxonomy Vault.init ⟨some (.malformedJson 0), none, 0⟩
      "pw" "t" "u" "pw" (by decide)).1 (by decide),
   (claim_C6_error_taxonomy Vault.init exWorld "pw" "t" "u" "pw"
      (by decide)).2.1,
   (claim_C6_error_taxonomy Vault.init exWorld "pw" "t" "u" "pw"
      (by decide)).2.2.1,
   (claim_C6_error_taxonomy Vault.init exWorld "pw" "t" "u" "pw"
      (by decide)).2.2.2⟩

/-- One step of any public operation preserves the nonce invariant: the
container file keeps a well-formed envelope with the original nonce, and an
open vault's header carries that nonce. -/
theorem nonceInv_step (n0 : Bytes) (s : Vault × World) (op : Op)
    (h : nonceInv n0 s) : nonceInv n0 (stepOp s op) := by
  obtain ⟨v, w⟩ := s
  obtain ⟨⟨e, hf, hn⟩, hopen⟩ := h
  replace hf : w.file = some (.env e) := hf
  replace hopen : v.is_open = true →
      ∃ h : Header, v.header = some h ∧ h.nonce = n0 := hopen
  cases op with
  | unlock p =>
    cases hdec : aesgcmDecrypt (Vault.derive_key p e.kdf_salt) e.nonce
        e.ciphertext with
    | some pt =>
      refine ⟨⟨e, by simp [stepOp, Vault.unlock_or_create, hf, hdec], hn⟩, ?_⟩
      intro hvo
      refine ⟨⟨e.kdf_salt, e.nonce⟩, ?_, hn⟩
      simp [stepOp, Vault.unlock_or_create, hf, hdec]
    | none =>
      refine ⟨⟨e, by simp [stepOp, Vault.unlock_or_create, hf, hdec], hn⟩, ?_⟩
      intro hvo
      refine ⟨⟨e.kdf_salt, e.nonce⟩, ?_, hn⟩
      simp [stepOp, Vault.unlock_or_create, hf, hdec]
  | add t u p =>
    cases hvo : v.is_open
    · exact ⟨⟨e, by simp [stepOp, Vault.add_entry, hvo, hf], hn⟩,
        by simp [stepOp, Vault.add_entry, hvo]⟩
    · obtain ⟨hdr, hh, hhn⟩ := hopen hvo
      by_cases ht : t = "" <;>
        exact ⟨⟨e, by simp [stepOp, Vault.add_entry, hvo, ht, hf], hn⟩,
          by simp [stepOp, Vault.add_entry, hvo, ht, hh, hhn]⟩
  | save =>
    cases hvo : v.is_open
    · exact ⟨⟨e, by simp [stepOp, Vault.save, hvo, hf], hn⟩,
        by simp [stepOp, Vault.save, hvo]⟩
    · obtain ⟨hdr, hh, hhn⟩ := hopen hvo
      match hkk : v.key with
      | some k =>
        refine ⟨⟨⟨"scrypt", hdr.kdf_salt, hdr.nonce, "AESGCM",
            aesgcmEncrypt k hdr.nonce v.entries, 1⟩, ?_, hhn⟩, ?_⟩
        · simp [stepOp, Vault.save, hvo, hh, hkk]
        · simp [stepOp, Vault.save, hvo, hh, hkk, hhn]
      | none =>
        exact ⟨⟨e, by simp [stepOp, Vault.save, hvo, hh, hkk, hf], hn⟩,
          by simp [stepOp, Vault.save, hvo, hh, hkk, hhn]⟩
  | listEntries =>
    exact ⟨⟨e, hf, hn⟩, hopen⟩
  | exportCsv =>
    cases hvo : v.is_open
    · exact ⟨⟨e, by simp [stepOp, Vault.export_csv, hvo, hf], hn⟩,
        by simp [stepOp, Vault.export_csv, hvo]⟩
    · obtain ⟨hdr, hh, hhn⟩ := hopen hvo
      exact ⟨⟨e, by simp [stepOp, Vault.export_csv, hvo, hf], hn⟩,
        by simp [stepOp, Vault.export_csv, hvo, hh, hhn]⟩

/-- The nonce invariant is preserved by whole operation sequences. -/
theorem nonceInv_runOps (n0 : Bytes) (ops : List Op) (s : Vault × World)
    (h : nonceInv n0 s) : nonceInv n0 (runOps ops s) := by
  induction ops generalizing s with
  | nil => exact h
  | cons op ops ih => exact ih (stepOp s op) (nonceInv_step n0 s op h)

/-- C3: one nonce per container for its whole lifetime.  Starting from a
fresh `Vault` over any existing well-formed container, after every sequence
of public operations the container file is still a well-formed envelope whose
persisted `nonce` field equals the container's original nonce: `save`
re-encrypts with the header nonce loaded at unlock (`_encrypt` uses
`self._header.nonce`), which is the nonce the container was created with,
and nothing ever regenerates it. -/
theorem claim_C3_nonce_constant (ops : List Op) (e0 : Envelope) (w0 : World)
    (hf : w0.file = some (.env e0)) :
    ∃ e1 : Envelope,
      (runOps ops (Vault.init, w0)).2.file = some (.env e1) ∧
      e1.nonce = e0.nonce := by
  have h0 : nonceInv e0.nonce (Vault.init, w0) :=
    ⟨⟨e0, hf, rfl⟩, by intro hh; cases hh⟩
  exact (nonceInv_runOps e0.nonce ops (Vault.init, w0) h0).1

/-- Witness for C3: unlock, add, save on the example container keeps the
persisted nonce at its creation value `6`. -/
theorem claim_C3_nonce_constant_witness :
    exWorld.file = some (.env exEnv) ∧
    fileNonce (runOps [.unlock "P1", .add "t2" "u2" "p2", .save]
        (Vault.init, exWorld)).2.file = some 6 := by
  refine ⟨rfl, ?_⟩
  obtain ⟨e1, hfile, hn⟩ := claim_C3_nonce_constant
    [.unlock "P1", .add "t2" "u2" "p2", .save] exEnv exWorld rfl
  rw [hfile]
  simp only [fileNonce, hn]
  rfl

/-! ## CSV round-trip lemmas -/

/-- Stepping `parseQuotedAux` over one non-quote character. -/
theorem parseQuotedAux_cons (acc : List Char) (c : Char) (l : List Char)
    (hc : ¬ c = '"') :
    parseQuotedAux acc (c :: l) = parseQuotedAux (acc ++ [c]) l := by
  cases l with
  | nil => simp [parseQuotedAux, hc]
  | cons c2 l2 => rw [parseQuotedAux.eq_2, if_neg hc]

/-- Stepping `parseUnquotedAux` over one non-stop character. -/
theorem parseUnquotedAux_cons (acc : List Char) (c : Char) (l : List Char)
    (hc : (c = ',' || c = '\r' || c = '\n') = false) :
    parseUnquotedAux acc (c :: l) = parseUnquotedAux (acc ++ [c]) l := by
  simp [parseUnquotedAux, hc]

/-- Reading a quoted body: the escaped field followed by the closing quote
parses back to the field, provided the continuation does not begin with a
quote (in rendered files it is `,` or `\r`). -/
theorem parseQuotedAux_escape (s : List Char) :
    ∀ (acc rest : List Char), rest.head? ≠ some '"' →
      parseQuotedAux acc (csvEscape s ++ '"' :: rest) = some (acc ++ s, rest) := by
  induction s with
  | nil =>
    intro acc rest hrest
    cases rest with
    | nil => simp [csvEscape, parseQuotedAux]
    | cons c cs =>
      have hc : ¬ c = '"' := by simpa using hrest
      simp [csvEscape, parseQuotedAux, hc]
  | cons c s ih =>
    intro acc rest hrest
    by_cases hc : c = '"'
    · subst hc
      have hsplit : csvEscape ('"' :: s) ++ '"' :: rest
          = '"' :: '"' :: (csvEscape s ++ '"' :: rest) := by
        simp [csvEscape]
      rw [hsplit, parseQuotedAux.eq_2, if_pos rfl, if_pos rfl,
        ih (acc ++ ['"']) rest hrest]
      simp
    · have hsplit : csvEscape (c :: s) ++ '"' :: rest
          = c :: (csvEscape s ++ '"' :: rest) := by
        simp [csvEscape, hc]
      rw [hsplit, parseQuotedAux_cons acc c _ hc, ih (acc ++ [c]) rest hrest]
      simp

/-- Reading an unquoted run: a field without special characters, followed by
a stop character (or the end), parses back to the field. -/
theorem parseUnquotedAux_append (s : List Char) :
    ∀ (acc rest : List Char),
      (∀ c ∈ s, csvSpecial c = false) → unquotedStop rest →
      parseUnquotedAux acc (s ++ rest) = (acc ++ s, rest) := by
  induction s with
  | nil =>
    intro acc rest _ hrest
    rcases hrest with rfl | ⟨c, cs, rfl, hc⟩
    · simp [parseUnquotedAux]
    · have hcond : (c = ',' || c = '\r' || c = '\n') = true := by
        rcases hc with rfl | rfl | rfl <;> simp
      simp [parseUnquotedAux, hcond]
  | cons c s ih =>
    intro acc rest hs hrest
    have hcs : csvSpecial c = false := hs c (by simp)
    have h1 : ¬ c = ',' := by
      intro h; subst h; simp [csvSpecial] at hcs
    have h3 : ¬ c = '\r' := by
      intro h; subst h; simp [csvSpecial] at hcs
    have h4 : ¬ c = '\n' := by
      intro h; subst h; simp [csvSpecial] at hcs
    have hcond : (c = ',' || c = '\r' || c = '\n') = false := by
      simp [h1, h3, h4]
    rw [List.cons_append, parseUnquotedAux_cons acc c _ hcond,
      ih (acc ++ [c]) rest (fun x hx => hs x (List.mem_cons_of_mem c hx)) hrest]
    simp

/-- A field whose head is not a quote is read as an unquoted field. -/
theorem parseOneField_unquotedHead (s : List Char) (h : s.head? ≠ some '"') :
    parseOneField s = some (parseUnquotedAux [] s) := by
  cases s with
  | nil => simp [parseOneField]
  | cons c cs =>
    have hc : ¬ c = '"' := by simpa using h
    simp [parseOneField, hc]

/-- Reading back one rendered field: `csvField f` followed by a stop
character (or the end) parses to exactly `f`. -/
theorem parseOneField_csvField (f rest : List Char) (h : fieldStop rest) :
    parseOneField (csvField f ++ rest) = some (f, rest) := by
  by_cases hq : csvNeedsQuote f
  · have hr : rest.head? ≠ some '"' := by
      rcases h with rfl | ⟨cs, rfl⟩ | ⟨cs, rfl⟩ <;> simp
    have heq : csvField f ++ rest = '"' :: (csvEscape f ++ '"' :: rest) := by
      simp [csvField, hq]
    rw [heq]
    simp only [parseOneField, if_pos rfl]
    rw [parseQuotedAux_escape f [] rest hr]
    simp
  · have hf : csvField f = f := by simp [csvField, hq]
    have hs : ∀ c ∈ f, csvSpecial c = false := by
      intro c hc
      by_contra hcc
      have : f.any csvSpecial = true :=
        List.any_eq_true.2 ⟨c, hc, by revert hcc; cases csvSpecial c <;> simp⟩
      exact hq this
    have hstop : unquotedStop rest := by
      rcases h with rfl | ⟨cs, rfl⟩ | ⟨cs, rfl⟩
      · exact Or.inl rfl
      · exact Or.inr ⟨',', cs, rfl, Or.inl rfl⟩
      · exact Or.inr ⟨'\r', cs, rfl, Or.inr (Or.inl rfl)⟩
    have hhead : (f ++ rest).head? ≠ some '"' := by
      cases f with
      | nil =>
        rcases h with rfl | ⟨cs, rfl⟩ | ⟨cs, rfl⟩ <;> simp
      | cons c cs =>
        have : csvSpecial c = false := hs c (by simp)
        have : ¬ c = '"' := by
          intro hh; subst hh; simp [csvSpecial] at this
        simpa using this
    rw [hf, parseOneField_unquotedHead _ hhead,
      parseUnquotedAux_append f [] rest hs hstop]
    simp

/-- Reading back one rendered record: the joined rendered fields followed by
`\r\n` parse to exactly those fields (fuel bounds the field count). -/
theorem parseFieldsFuel_row (fields : List (List Char)) :
    ∀ (rest : List Char) (fuel : Nat), fields ≠ [] → fields.length ≤ fuel →
      parseFieldsFuel fuel (csvRowBody fields ++ '\r' :: '\n' :: rest)
        = some (fields, rest) := by
  induction fields with
  | nil => intro rest fuel hne _; exact absurd rfl hne
  | cons f fs ih =>
    intro rest fuel _ hlen
    cases fuel with
    | zero => simp at hlen
    | succ n =>
      cases fs with
      | nil =>
        have hone := parseOneField_csvField f ('\r' :: '\n' :: rest)
          (Or.inr (Or.inr ⟨'\n' :: rest, rfl⟩))
        simp [csvRowBody, parseFieldsFuel, hone]
      | cons f2 fs2 =>
        have hsplit : csvRowBody (f :: f2 :: fs2) ++ '\r' :: '\n' :: rest
            = csvField f ++ ',' ::
                (csvRowBody (f2 :: fs2) ++ '\r' :: '\n' :: rest) := by
          simp [csvRowBody]
        have hone := parseOneField_csvField f
          (',' :: (csvRowBody (f2 :: fs2) ++ '\r' :: '\n' :: rest))
          (Or.inr (Or.inl ⟨_, rfl⟩))
        have hrec := ih rest n (by simp) (by simpa using Nat.le_of_succ_le_succ hlen)
        simp [hsplit, parseFieldsFuel, hone, hrec]

/-- `csv.writer` rows are never empty strings. -/
theorem csvRow_ne_nil (r : List (List Char)) : csvRow r ≠ [] := by
  simp [csvRow]

/-- Unfolding `parseCsvFuel` at positive fuel on a non-empty input. -/
theorem parseCsvFuel_cons (n : Nat) (s : List Char) (hs : s ≠ []) :
    parseCsvFuel (n + 1) s
      = match parseFieldsFuel (n + 1) s with
        | none => none
        | some (r, rest) =>
          match parseCsvFuel n rest with
          | none => none
          | some rs => some (r :: rs) := by
  cases s with
  | nil => exact absurd rfl hs
  | cons c l => rw [parseCsvFuel]

/-- Reading back a whole rendered file, with fuel at least the record count
plus the (three-field) record width. -/
theorem parseCsvFuel_render (rows : List (List (List Char))) :
    ∀ fuel : Nat, (∀ r ∈ rows, r ≠ [] ∧ r.length ≤ 3) →
      rows.length + 3 ≤ fuel →
      parseCsvFuel fuel (csvRender rows) = some rows := by
  induction rows with
  | nil =>
    intro fuel _ _
    simp [csvRender, parseCsvFuel]
  | cons r rs ih =>
    intro fuel hr hlen
    obtain ⟨hrne, hrlen⟩ := hr r (by simp)
    cases fuel with
    | zero => simp at hlen
    | succ n =>
      have hne : csvRender (r :: rs) ≠ [] := by
        intro hcontra
        apply csvRow_ne_nil r
        have h0 : csvRow r ++ csvRender rs = [] := by
          simpa [csvRender] using hcontra
        exact (List.append_eq_nil.mp h0).1
      have hsplit : csvRender (r :: rs)
          = csvRowBody r ++ '\r' :: '\n' :: csvRender rs := by
        simp [csvRender, csvRow]
      have hfields := parseFieldsFuel_row r (csvRender rs) (n + 1) hrne
        (le_trans hrlen (by omega))
      have hrec := ih n (fun x hx => hr x (by simp [hx])) (by simp at hlen; omega)
      rw [parseCsvFuel_cons n _ hne, hsplit, hfields]
      simp [hrec]

/-- Three-field rows render to at least four characters. -/
theorem csvRow_three_length (a b c : List Char) :
    4 ≤ (csvRow [a, b, c]).length := by
  simp [csvRow, csvRowBody]
  omega

/-- A file of three-field rows is at least four characters per row. -/
theorem csvRender_length (rows : List (List (List Char)))
    (h : ∀ r ∈ rows, ∃ a b c, r = [a, b, c]) :
    4 * rows.length ≤ (csvRender rows).length := by
  induction rows with
  | nil => simp [csvRender]
  | cons r rs ih =>
    obtain ⟨a, b, c, rfl⟩ := h r (by simp)
    have h1 := csvRow_three_length a b c
    have h2 := ih (fun x hx => h x (by simp [hx]))
    simp only [csvRender, List.map_cons, List.flatten_cons, List.length_append,
      List.length_cons]
    simp only [csvRender] at h2
    omega

/-- Reading back a rendered file of three-field records with the default
fuel: the parser inverts the writer. -/
theorem parseCsv_render (rows : List (List (List Char)))
    (hne : rows ≠ []) (h3 : ∀ r ∈ rows, ∃ a b c, r = [a, b, c]) :
    parseCsv (csvRender rows) = some rows := by
  apply parseCsvFuel_render
  · intro r hr
    obtain ⟨a, b, c, rfl⟩ := h3 r hr
    exact ⟨by simp, by simp⟩
  · have h4 := csvRender_length rows h3
    have h5 : 1 ≤ rows.length := by
      cases rows with
      | nil => exact absurd rfl hne
      | cons r rs => simp
    omega

/-- Line counts add over concatenation. -/
theorem lineCount_append (a b : List Char) :
    lineCount (a ++ b) = lineCount a + lineCount b := by
  simp [lineCount, List.filter_append]

/-- Doubling quotes does not change the number of line feeds. -/
theorem lineCount_csvEscape (s : List Char) :
    lineCount (csvEscape s) = lineCount s := by
  induction s with
  | nil => rfl
  | cons c s ih =>
    by_cases hc : c = '"'
    · subst hc
      simp [csvEscape, lineCount, List.filter_cons] at ih ⊢
      omega
    · by_cases hn : c = '\n'
      · subst hn
        simp [csvEscape, hc, lineCount, List.filter_cons] at ih ⊢
        omega
      · simp [csvEscape, hc, hn, lineCount, List.filter_cons] at ih ⊢
        exact ih

/-- Quoting a field does not change its number of line feeds. -/
theorem lineCount_csvField (f : List Char) :
    lineCount (csvField f) = lineCount f := by
  by_cases hq : csvNeedsQuote f = true
  · have he := lineCount_csvEscape f
    simp only [lineCount] at he ⊢
    simp [csvField, hq, List.filter_cons, List.filter_append, he]
  · simp [csvField, hq]

/-- A field without line feeds contributes no lines. -/
theorem lineCount_no_newline (f : List Char) (h : '\n' ∉ f) :
    lineCount f = 0 := by
  simp [lineCount, List.length_eq_zero, List.filter_eq_nil_iff]
  intro c hc hcontra
  subst hcontra
  exact h hc

/-- A record body of newline-free fields contributes no lines. -/
theorem lineCount_csvRowBody (r : List (List Char))
    (h : ∀ f ∈ r, '\n' ∉ f) : lineCount (csvRowBody r) = 0 := by
  induction r with
  | nil => rfl
  | cons f fs ih =>
    cases fs with
    | nil =>
      simp only [csvRowBody]
      rw [lineCount_csvField]
      exact lineCount_no_newline f (h f (by simp))
    | cons f2 fs2 =>
      have h1 : lineCount (csvField f) = 0 := by
        rw [lineCount_csvField]
        exact lineCount_no_newline f (h f (by simp))
      have h2 : lineCount (csvRowBody (f2 :: fs2)) = 0 :=
        ih (fun x hx => h x (by simp [hx]))
      have h3 : lineCount (',' :: csvRowBody (f2 :: fs2))
          = lineCount (csvRowBody (f2 :: fs2)) := by
        simp [lineCount, List.filter_cons]
      simp only [csvRowBody]
      rw [lineCount_append, h1, h3, h2]

/-- Each rendered record of newline-free fields is exactly one line. -/
theorem lineCount_csvRow (r : List (List Char)) (h : ∀ f ∈ r, '\n' ∉ f) :
    lineCount (csvRow r) = 1 := by
  simp only [csvRow]
  rw [lineCount_append, lineCount_csvRowBody r h]
  decide

/-- A rendered file of newline-free fields has one line per record. -/
theorem lineCount_csvRender (rows : List (List (List Char)))
    (h : ∀ r ∈ rows, ∀ f ∈ r, '\n' ∉ f) :
    lineCount (csvRender rows) = rows.length := by
  induction rows with
  | nil => rfl
  | cons r rs ih =>
    have h1 := lineCount_csvRow r (h r (by simp))
    have h2 := ih (fun x hx => h x (by simp [hx]))
    simp only [csvRender, List.map_cons, List.flatten_cons, List.length_cons]
    rw [lineCount_append]
    simp only [csvRender] at h2
    omega

/-- C9 counterexample: on an unlocked vault with N = 1 entry whose title
contains a line feed, `export_csv` returns 1, but the written file has 3
lines, not N+1 = 2: `csv.writer` quotes the field and embeds the newline
verbatim, adding a physical line. -/
theorem claim_C9_lines_counterexample :
    (exNewlineVault.export_csv exWorld).res = .ok 1 ∧
    (exNewlineVault.export_csv exWorld).world.csvFile
      = some (csvRender (csvHeaderRow :: [entryRow exNewlineEntry])) ∧
    lineCount (csvRender (csvHeaderRow :: [entryRow exNewlineEntry])) = 3 ∧
    lineCount (csvRender (csvHeaderRow :: [entryRow exNewlineEntry])) ≠ 1 + 1 := by
  refine ⟨rfl, rfl, ?_, ?_⟩ <;> decide

/-- C9 (amended): on an unlocked vault with N entries, `export_csv` returns N
and writes the header row plus one CSV record per entry; parsing the file
back with a standard RFC4180 parser reproduces the (title, username,
password) tuples exactly, for all field values; and the file has exactly N+1
physical lines provided no field contains a line feed (a field with an
embedded newline is quoted, adding physical lines while preserving the
record count). -/
theorem claim_C9_export_csv (v : Vault) (w : World) (hopen : v.is_open = true) :
    (v.export_csv w).res = .ok v.entries.length ∧
    (v.export_csv w).world.csvFile
      = some (csvRender (csvHeaderRow :: v.entries.map entryRow)) ∧
    parseCsv (csvRender (csvHeaderRow :: v.entries.map entryRow))
      = some (csvHeaderRow :: v.entries.map entryRow) ∧
    ((∀ r ∈ v.entries, '\n' ∉ r.title.toList ∧ '\n' ∉ r.username.toList ∧
        '\n' ∉ r.password.toList) →
      lineCount (csvRender (csvHeaderRow :: v.entries.map entryRow))
        = v.entries.length + 1) := by
  refine ⟨?_, ?_, ?_, ?_⟩
  · simp [Vault.export_csv, hopen]
  · simp [Vault.export_csv, hopen]
  · apply parseCsv_render
    · simp
    · intro r hr
      rcases List.mem_cons.mp hr with rfl | hr2
      · exact ⟨"Title".toList, "Username".toList, "Password".toList, rfl⟩
      · obtain ⟨x, _, rfl⟩ := List.mem_map.mp hr2
        exact ⟨x.title.toList, x.username.toList, x.password.toList, rfl⟩
  · intro hnl
    rw [lineCount_csvRender]
    · simp
    · intro r hr f hf
      rcases List.mem_cons.mp hr with rfl | hr2
      · simp only [csvHeaderRow, List.mem_cons, List.not_mem_nil,
          or_false] at hf
        rcases hf with rfl | rfl | rfl <;> decide
      · obtain ⟨x, hx, rfl⟩ := List.mem_map.mp hr2
        obtain ⟨hn1, hn2, hn3⟩ := hnl x hx
        simp only [entryRow, List.mem_cons, List.not_mem_nil, or_false] at hf
        rcases hf with rfl | rfl | rfl
        · exact hn1
        · exact hn2
        · exact hn3

/-- Witness for C9 (amended) at a vault whose fields contain the delimiter
and the quote character. -/
theorem claim_C9_export_csv_witness :
    exQuoteVault.is_open = true ∧
    (exQuoteVault.export_csv exWorld).res = .ok 1 ∧
    parseCsv (csvRender (csvHeaderRow :: exQuoteVault.entries.map entryRow))
      = some (csvHeaderRow :: exQuoteVault.entries.map entryRow) ∧
    lineCount (csvRender (csvHeaderRow :: exQuoteVault.entries.map entryRow))
      = 2 :=
  ⟨rfl, (claim_C9_export_csv exQuoteVault exWorld rfl).1,
   (claim_C9_export_csv exQuoteVault exWorld rfl).2.2.1,
   (claim_C9_export_csv exQuoteVault exWorld rfl).2.2.2 (by decide)⟩
